import Mathlib

/-!
Verification development for the `server-assistant` repository
(GaiaNet-AI/server-assistant).  The definitions below are a shallow
embedding of the Rust sources:

  * `src/health.rs` — `LogMessage::from_str` (the log-line parser built on
    a regular expression plus `chrono::NaiveDateTime::parse_from_str`),
    the body of the `check_server_health` loop (log-batch scan, the
    `ping_server` fallback paths, and the cursor-tracked file tailing),
    and `ping_server`'s error mapping;
  * `src/main.rs` — the spawned health task that wraps
    `check_server_health` and force-sets `SERVER_HEALTH` to `false` on a
    fatal loop error.

Strings are modelled as `List Char`; the shared `OnceCell<RwLock<_>>`
singletons (`SERVER_HEALTH`, `TIMESTAMP_LAST_ACCESS_LOG`) are modelled as
`Option`-valued fields of an explicit state record, since within the
single health task all their accesses are sequential.  Rust `panic!` /
`unwrap` aborts are modelled as an explicit `panic` outcome of the parser
and of batch processing.
-/

namespace Assistant

/-- ASCII whitespace, as recognised by both the regex class `\s` and
Rust's `split_whitespace` on the inputs considered here.  (Non-ASCII
Unicode whitespace is not modelled; no log line in this development
contains any.) -/
def isWS (c : Char) : Bool :=
  c = ' ' || c = '\t' || c = '\n' || c = '\r' || c = '\x0b' || c = '\x0c'

/-- Value of a decimal digit character. -/
def digitVal (c : Char) : Nat := c.toNat - '0'.toNat

/-- Decimal digits to a natural number, most significant first. -/
def digitsToNat (cs : List Char) : Nat :=
  cs.foldl (fun acc c => acc * 10 + digitVal c) 0

/-- Greedy run: `takeWhile1 p cs` is the maximal run of characters satisfying
`p`, required to be non-empty, together with the rest.  This is the
deterministic reading of the regex pieces `[^\]]+`, `[^\s]+`, `[^\:]+`
and `\d+`: each of these character classes excludes the character that
the pattern requires immediately afterwards, so greedy matching never
needs to backtrack. -/
def takeWhile1 (p : Char → Bool) (cs : List Char) :
    Option (List Char × List Char) :=
  let t := cs.takeWhile p
  if t.isEmpty then none else some (t, cs.dropWhile p)

/-- Expect one literal character. -/
def expectChar (c : Char) : List Char → Option (List Char)
  | [] => none
  | x :: xs => if x = c then some xs else none

/-- Expect a literal character sequence. -/
def expectLit : List Char → List Char → Option (List Char)
  | [], cs => some cs
  | l :: ls, cs => do expectLit ls (← expectChar l cs)

/-- A parsed timestamp, as produced by
`NaiveDateTime::parse_from_str(_, "%Y-%m-%d %H:%M:%S%.3f").and_utc()`
in `LogMessage::from_str` (src/health.rs line 39), and as held by
`TIMESTAMP_LAST_ACCESS_LOG` (`DateTime<Utc>`). -/
structure Timestamp where
  year : Int
  month : Nat
  day : Nat
  hour : Nat
  minute : Nat
  second : Nat
  milli : Nat
deriving DecidableEq, Repr

/-- Gregorian leap-year rule (as used by chrono's calendar). -/
def isLeap (y : Int) : Bool :=
  y % 4 = 0 && (y % 100 ≠ 0 || y % 400 = 0)

/-- Days in a month of the proleptic Gregorian calendar. -/
def daysInMonth (y : Int) (m : Nat) : Nat :=
  if m = 2 then (if isLeap y then 29 else 28)
  else if m = 4 || m = 6 || m = 9 || m = 11 then 30
  else 31

/-- Parse a numeric field of at most two digits, greedily — chrono's
numeric items `%m`, `%d`, `%H`, `%M`, `%S` have maximum parse width 2. -/
def upTo2Digits : List Char → Option (Nat × List Char)
  | [] => none
  | [a] => if a.isDigit then some (digitVal a, []) else none
  | a :: b :: rest =>
    if a.isDigit then
      if b.isDigit then some (digitVal a * 10 + digitVal b, rest)
      else some (digitVal a, b :: rest)
    else none

/-- Optional leading sign of chrono's signed `%Y` item. -/
def parseSign : List Char → Bool × List Char
  | '-' :: rest => (true, rest)
  | '+' :: rest => (false, rest)
  | cs => (false, cs)

/-- Fractional part `%.3f`: either absent, or a dot followed by exactly
three digits. -/
def parseMilli : List Char → Option (Nat × List Char)
  | '.' :: d1 :: d2 :: d3 :: rest =>
    if d1.isDigit && d2.isDigit && d3.isDigit then
      some (digitVal d1 * 100 + digitVal d2 * 10 + digitVal d3, rest)
    else none
  | '.' :: _ => none
  | cs => some (0, cs)

/-- Calendar validation applied by chrono after field parsing. -/
def validFields (month day hour minute second : Nat) (year : Int) : Bool :=
  1 ≤ month && month ≤ 12 &&
  1 ≤ day && day ≤ daysInMonth year month &&
  hour ≤ 23 && minute ≤ 59 && second ≤ 59

/-- Model of
`NaiveDateTime::parse_from_str(s, "%Y-%m-%d %H:%M:%S%.3f")`
(src/health.rs line 39).  `%Y` is a signed, unbounded-width digit run;
the other numeric fields parse at most two digits; the literal space in
the format matches any (possibly empty) whitespace run; `%.3f` is either
absent or a dot followed by exactly three digits; trailing input makes
the whole parse fail; finally the field values are validated against the
calendar.  (chrono's overall year-range cap and leap-second `%S = 60`
input are not modelled; no theorem below depends on them.) -/
def parseTimestamp (cs0 : List Char) : Option Timestamp := do
  let (neg, cs) := parseSign cs0
  let (ydig, cs) ← takeWhile1 Char.isDigit cs
  let year : Int := if neg then -(digitsToNat ydig : Int) else (digitsToNat ydig : Int)
  let cs ← expectChar '-' cs
  let (month, cs) ← upTo2Digits cs
  let cs ← expectChar '-' cs
  let (day, cs) ← upTo2Digits cs
  let cs := cs.dropWhile isWS
  let (hour, cs) ← upTo2Digits cs
  let cs ← expectChar ':' cs
  let (minute, cs) ← upTo2Digits cs
  let cs ← expectChar ':' cs
  let (second, cs) ← upTo2Digits cs
  let (milli, cs) ← parseMilli cs
  if cs.isEmpty && validFields month day hour minute second year then
    some ⟨year, month, day, hour, minute, second, milli⟩
  else none

/-- The raw captures of the regex in `LogMessage::from_str`
(src/health.rs line 33):
`^\[(?P<timestamp>[^\]]+)\] \[(?P<level>[^\]]+)\] (?P<service>[^\s]+) in (?P<file>[^\:]+):(?P<line>\d+): (?P<custom_message>.*)`.
Each quantified class excludes the immediately following required
character, so greedy matching is deterministic and this sequential
decomposition is exact (the trailing `.*` takes the whole rest of the
line; a line never contains a newline). -/
def matchLogRegex (cs : List Char) :
    Option (List Char × List Char × List Char × List Char × List Char × List Char) := do
  let cs ← expectChar '[' cs
  let (ts, cs) ← takeWhile1 (fun c => c ≠ ']') cs
  let cs ← expectLit "] [".data cs
  let (level, cs) ← takeWhile1 (fun c => c ≠ ']') cs
  let cs ← expectLit "] ".data cs
  let (service, cs) ← takeWhile1 (fun c => !isWS c) cs
  let cs ← expectLit " in ".data cs
  let (file, cs) ← takeWhile1 (fun c => c ≠ ':') cs
  let cs ← expectChar ':' cs
  let (lineDigits, cs) ← takeWhile1 Char.isDigit cs
  let cs ← expectLit ": ".data cs
  some (ts, level, service, file, lineDigits, cs)

/-- The structured log event (struct `LogMessage`, src/health.rs
lines 19–27). -/
structure LogMessage where
  timestamp : Timestamp
  level : List Char
  service : List Char
  file : List Char
  line : Nat
  custom_message : List Char
deriving DecidableEq, Repr

/-- Outcome of `LogMessage::from_str`: a parsed message, a recoverable
`Err`, or a process abort (`panic!` / `unwrap` on `None`). -/
inductive ParseOutcome where
  | ok (m : LogMessage)
  | err (msg : List Char)
  | panic
deriving DecidableEq, Repr

/-- Model of `LogMessage::from_str` (src/health.rs lines 31–59).  When the regex
matches, the timestamp is parsed first; on failure the code runs
`panic!("Error parsing date")` (line 44).  Then the line number is
parsed as `u32` via `.parse().ok().unwrap()` (line 53), which panics on
overflow.  When the regex does not match, the function returns
`Err("Invalid API Server log message")`. -/
def from_str (cs : List Char) : ParseOutcome :=
  match matchLogRegex cs with
  | some (ts, level, service, file, lineDigits, msg) =>
    match parseTimestamp ts with
    | none => .panic
    | some t =>
      if digitsToNat lineDigits < 2 ^ 32 then
        .ok ⟨t, level, service, file, digitsToNat lineDigits, msg⟩
      else .panic
  | none => .err "Invalid API Server log message".data

/-- Truncating (toward-zero) integer division, the rounding used by
`chrono::Duration::num_seconds`. -/
def tdivZ (a b : Int) : Int :=
  a.sign * b.sign * ((a.natAbs / b.natAbs : Nat) : Int)

/-- Milliseconds since the Unix epoch of a `Timestamp`, via the standard
civil-from-days computation; this is how two `DateTime<Utc>` values
compare and subtract. -/
def Timestamp.toMillis (t : Timestamp) : Int :=
  let y : Int := if t.month ≤ 2 then t.year - 1 else t.year
  let era : Int := (if 0 ≤ y then y else y - 399) / 400
  let yoe : Int := y - era * 400
  let mp : Int := (t.month : Int) + (if 2 < t.month then -3 else 9)
  let doy : Int := (153 * mp + 2) / 5 + (t.day : Int) - 1
  let doe : Int := yoe * 365 + yoe / 4 - yoe / 100 + doy
  let days : Int := era * 146097 + doe - 719468
  ((days * 24 + (t.hour : Int)) * 60 + (t.minute : Int)) * 60 * 1000
    + (t.second : Int) * 1000 + (t.milli : Int)

/-- Model of `now.signed_duration_since(ts).num_seconds()` (src/health.rs
lines 314–316). -/
def numSecondsSince (now ts : Timestamp) : Int :=
  tdivZ (now.toMillis - ts.toMillis) 1000

/-- Constant `MAX_TIME_SPAN_IN_SECONDS` (src/main.rs line 22). -/
def MAX_TIME_SPAN_IN_SECONDS : Int := 30

/-- Rust `str::split_whitespace` on our character lists (used at
src/health.rs line 139): maximal non-whitespace runs, empties skipped. -/
def splitWSAux : List Char → List Char → List (List Char)
  | [], acc => if acc.isEmpty then [] else [acc.reverse]
  | c :: cs, acc =>
    if isWS c then
      if acc.isEmpty then splitWSAux cs []
      else acc.reverse :: splitWSAux cs []
    else splitWSAux cs (c :: acc)

def splitWS (cs : List Char) : List (List Char) := splitWSAux cs []

/-- Model of `custom_message.split_whitespace().last().unwrap()` (src/health.rs
lines 137–142).  The `unwrap` cannot fail at its call site because the
message is guarded to start with the non-whitespace text
`response_status:`; the default `[]` is unreachable there. -/
def lastToken (cs : List Char) : List Char := (splitWS cs).getLastD []

/-- Substring test (`str::contains`, used for the `"Qdrant error:"`
checks in src/health.rs). -/
def containsSub (pat : List Char) : List Char → Bool
  | [] => decide (pat = [])
  | c :: cs => pat.isPrefixOf (c :: cs) || containsSub pat cs

def containsQdrant (msg : List Char) : Bool :=
  containsSub "Qdrant error:".data msg

/-- The shared mutable singletons touched by the health engine:
`SERVER_HEALTH : OnceCell<RwLock<bool>>` and
`TIMESTAMP_LAST_ACCESS_LOG : OnceCell<RwLock<DateTime<Utc>>>`
(src/main.rs lines 27–29), each `none` while its cell is still unset. -/
structure HealthSt where
  serverHealth : Option Bool
  timestampLastAccess : Option Timestamp
deriving DecidableEq, Repr

/-- The recurring `SERVER_HEALTH`-to-`false` block (e.g. src/health.rs
lines 163–176): if the cell is set, write `false` (guarded by
`if *healthy`); otherwise initialise it to `false`. -/
def updateHealthFalse : Option Bool → Option Bool
  | some healthy => some (if healthy then false else healthy)
  | none => some false

/-- The recurring `SERVER_HEALTH`-to-`true` block (e.g. src/health.rs
lines 180–193). -/
def updateHealthTrue : Option Bool → Option Bool
  | some healthy => some (if healthy then healthy else true)
  | none => some true

/-- The body of the `response_status:` branch (src/health.rs
lines 135–201): record `Utc::now()` into `TIMESTAMP_LAST_ACCESS_LOG`,
then set the health from the status token — `false` iff it equals
`"500"`, `true` otherwise. -/
def actOnResponse (status : List Char) (now : Timestamp) (st : HealthSt) :
    HealthSt :=
  { serverHealth :=
      if status = "500".data then updateHealthFalse st.serverHealth
      else updateHealthTrue st.serverHealth,
    timestampLastAccess := some now }

/-- Outcome of scanning one batch of new log lines: a process abort
(a line whose parse panics), or the new state together with the
`updated` flag and the list of events that were acted upon. -/
inductive BatchOutcome where
  | panic
  | done (st : HealthSt) (updated : Bool) (acted : List LogMessage)
deriving DecidableEq, Repr

/-- The loop `for line in new_lines.lines().rev()` (src/health.rs
lines 133–203), operating on the already-reversed list: skip lines that
fail to parse, skip parsed lines whose message does not start with
`response_status:`, and on the first hit act on it, set `updated` and
`break`. -/
def processRev (now : Timestamp) : List (List Char) → HealthSt → BatchOutcome
  | [], st => .done st false []
  | l :: rest, st =>
    match from_str l with
    | .panic => .panic
    | .err _ => processRev now rest st
    | .ok m =>
      if "response_status:".data.isPrefixOf m.custom_message then
        .done (actOnResponse (lastToken m.custom_message) now st) true [m]
      else processRev now rest st

/-- One batch scan of the new log lines, in file order (oldest first),
as performed by src/health.rs lines 131–203: the code iterates the
lines *reversed* (newest first) and stops at the first
`response_status:` hit. -/
def processLogBatch (lines : List (List Char)) (now : Timestamp)
    (st : HealthSt) : BatchOutcome :=
  processRev now lines.reverse st

/-- Result of `ping_server().await` as seen by its callers
(src/health.rs lines 607–640): the function returns `Ok(response)` for
*any* HTTP response (whatever its status) and
`Err(ServerDownError(msg))` exactly when the transport `send()` failed.
The callers also match a residual error arm (`Err(e)` with a
`"Qdrant error:"` substring test) which `ping_server` itself can never
produce; it is kept here for faithfulness.  `body` is the result of
`response.text().await` where a caller reads it (`none` = the body read
failed). -/
inductive PingResult where
  | ok (status : Nat) (body : Option (List Char))
  | serverDown (msg : List Char)
  | otherErr (msg : List Char)
deriving DecidableEq, Repr

/-- Model of `reqwest::StatusCode::is_success`. -/
def isSuccess (status : Nat) : Bool := 200 ≤ status && status < 300

/-- Consumption of the ping result in the "new lines but no
`response_status:` found" path (src/health.rs lines 206–291) and,
identically, in the "`TIMESTAMP_LAST_ACCESS_LOG` never set" idle path
(lines 479–563): any `Ok` response — successful or not — sets health
`true`; `ServerDownError` sets it `false`; a residual error sets it
`false` iff its message contains `"Qdrant error:"`. -/
def applyPingNoBody (ping : PingResult) (st : HealthSt) : HealthSt :=
  match ping with
  | .ok _ _ => { st with serverHealth := updateHealthTrue st.serverHealth }
  | .serverDown _ => { st with serverHealth := updateHealthFalse st.serverHealth }
  | .otherErr msg =>
    if containsQdrant msg then
      { st with serverHealth := updateHealthFalse st.serverHealth }
    else { st with serverHealth := updateHealthTrue st.serverHealth }

/-- Consumption of the ping result in the idle path with
`TIMESTAMP_LAST_ACCESS_LOG` set (src/health.rs lines 329–470): a
successful status sets health `true`; a non-success status reads the
body and sets health by the `"Qdrant error:"` test (`true` when the
substring is absent!), leaving health untouched when the body read
fails; `ServerDownError` sets `false`; the residual arm as above. -/
def applyPingIdle (ping : PingResult) (st : HealthSt) : HealthSt :=
  match ping with
  | .ok status body =>
    if isSuccess status then
      { st with serverHealth := updateHealthTrue st.serverHealth }
    else
      match body with
      | some b =>
        if containsQdrant b then
          { st with serverHealth := updateHealthFalse st.serverHealth }
        else { st with serverHealth := updateHealthTrue st.serverHealth }
      | none => st
  | .serverDown _ => { st with serverHealth := updateHealthFalse st.serverHealth }
  | .otherErr msg =>
    if containsQdrant msg then
      { st with serverHealth := updateHealthFalse st.serverHealth }
    else { st with serverHealth := updateHealthTrue st.serverHealth }

/-- Outcome of one iteration of the `check_server_health` loop body:
an abort, or the new state, whether `ping_server` was invoked, and the
log events acted upon. -/
inductive IterOutcome where
  | panic
  | done (st : HealthSt) (pinged : Bool) (acted : List LogMessage)
deriving DecidableEq, Repr

/-- One iteration of the `check_server_health` loop body
(src/health.rs lines 104–565), with the environment supplied as
arguments: `canCheck` (were new bytes found last time?), the freshly
read lines, `now : Utc::now()`, and the hypothetical ping result used
if and only if the iteration actually pings.

* `canCheck` branch (lines 111–303): scan the batch; if no
  `response_status:` line was acted on (`!updated`), ping the server
  (lines 206–291) regardless of idle time.
* else branch (lines 305–564): if the last-access timestamp is set and
  `now - ts >= MAX_TIME_SPAN_IN_SECONDS`, reset the timestamp to `now`
  *before* pinging, then consume the ping with the body-reading logic;
  if it is set but fresh, do nothing; if it was never set, initialise
  it to `now` and ping with the no-body logic. -/
def healthIteration (canCheck : Bool) (lines : List (List Char))
    (now : Timestamp) (ping : PingResult) (st : HealthSt) : IterOutcome :=
  if canCheck then
    match processLogBatch lines now st with
    | .panic => .panic
    | .done st1 updated acted =>
      if updated then .done st1 false acted
      else .done (applyPingNoBody ping st1) true acted
  else
    match st.timestampLastAccess with
    | some ts =>
      if MAX_TIME_SPAN_IN_SECONDS ≤ numSecondsSince now ts then
        .done (applyPingIdle ping { st with timestampLastAccess := some now })
          true []
      else .done st false []
    | none =>
      .done (applyPingNoBody ping { st with timestampLastAccess := some now })
        true []

/-- Events acted upon in an iteration (empty on abort). -/
def IterOutcome.actedList : IterOutcome → List LogMessage
  | .panic => []
  | .done _ _ acted => acted

/-- Whether `ping_server` was invoked in an iteration. -/
def IterOutcome.pinged : IterOutcome → Bool
  | .panic => false
  | .done _ p _ => p

/-- Events acted upon in a batch scan (empty on abort). -/
def BatchOutcome.actedList : BatchOutcome → List LogMessage
  | .panic => []
  | .done _ _ acted => acted

/-- The cursor-tracked read of `check_server_health` (src/health.rs
lines 111–128 and 293–303): when `canCheck` holds, seek to the saved
`current_position`, read to end of file, and save the new position
(which is the end of file); otherwise deliver nothing and keep the
cursor.  The file is the byte content, append-only. -/
def tailerRead (file : List Char) (cursor : Nat) (canCheck : Bool) :
    List Char × Nat :=
  if canCheck then (file.drop cursor, file.length) else ([], cursor)

/-- End-of-iteration re-arming of `can_check` (src/health.rs
lines 577–594): seek to the end to learn `latest_position` and set
`can_check = latest_position > current_position`. -/
def nextCanCheck (file : List Char) (cursor : Nat) : Bool :=
  cursor < file.length

/-- One full poll: read gated by the `can_check` computed from the
current file, as every iteration after the first does. -/
def tailerPoll (file : List Char) (cursor : Nat) : List Char × Nat :=
  tailerRead file cursor (nextCanCheck file cursor)

/-- The spawned health task of `main` (src/main.rs lines 341–366): run
`check_server_health`; if it returns an error, force `SERVER_HEALTH` to
`false` (initialising the cell if it was never set) and return the
wrapped error; otherwise return `Ok` leaving the cell alone. -/
def healthTaskWrap (res : Except (List Char) Unit) (h : Option Bool) :
    Option Bool × Except (List Char) Unit :=
  match res with
  | .ok _ => (h, .ok ())
  | .error e =>
    (updateHealthFalse h,
      .error ("Failed to check server health: ".data ++ e))

/-- Health cell after a batch scan (`none` on abort). -/
def BatchOutcome.health : BatchOutcome → Option Bool
  | .panic => none
  | .done st _ _ => st.serverHealth

/-- Last-access cell after a batch scan (`none` on abort). -/
def BatchOutcome.lastTs : BatchOutcome → Option Timestamp
  | .panic => none
  | .done st _ _ => st.timestampLastAccess

/-- Health cell after an iteration (`none` on abort). -/
def IterOutcome.health : IterOutcome → Option Bool
  | .panic => none
  | .done st _ _ => st.serverHealth

/-- Last-access cell after an iteration (`none` on abort). -/
def IterOutcome.lastTs : IterOutcome → Option Timestamp
  | .panic => none
  | .done st _ _ => st.timestampLastAccess

/-- A line is actionable when it parses and its message carries the
`response_status:` prefix — the only kind of line the batch scan acts
upon. -/
def actionable (l : List Char) : Bool :=
  match from_str l with
  | .ok m => "response_status:".data.isPrefixOf m.custom_message
  | _ => false

/-- Sample wall-clock instant used as `Utc::now()` in concrete runs. -/
def sampleNow : Timestamp := ⟨2024, 10, 12, 11, 0, 0, 0⟩

/-- Sample stale last-access instant (far more than 30 s before
`sampleNow`). -/
def staleTs : Timestamp := ⟨2024, 10, 12, 10, 0, 0, 0⟩

/-- A well-formed backend log line reporting status 404. -/
def line404 : List Char :=
  "[2024-10-12 10:20:30.123] [INFO] app in main.rs:1: response_status: 404".data

/-- A well-formed backend log line reporting status 500. -/
def line500 : List Char :=
  "[2024-10-12 10:20:30.000] [INFO] app in main.rs:1: response_status: 500".data

/-- A later well-formed backend log line reporting status 200. -/
def line200 : List Char :=
  "[2024-10-12 10:20:31.000] [INFO] app in main.rs:2: response_status: 200".data

/-- A well-formed backend log line announcing a request start. -/
def lineEndpoint : List Char :=
  "[2024-10-12 10:20:30.000] [INFO] app in main.rs:1: endpoint: /v1/chat/completions".data

/-- A later well-formed backend log line announcing a request start. -/
def lineEndpoint2 : List Char :=
  "[2024-10-12 10:20:31.000] [INFO] app in main.rs:2: endpoint: /v1/chat/completions".data

/-- Writing `true` always lands the health cell on `some true`, whatever
it held before. -/
theorem updateHealthTrue_eq (h : Option Bool) : updateHealthTrue h = some true := by
  rcases h with _ | b
  · rfl
  · rcases b <;> rfl

/-- Writing `false` always lands the health cell on `some false`,
whatever it held before. -/
theorem updateHealthFalse_eq (h : Option Bool) : updateHealthFalse h = some false := by
  rcases h with _ | b
  · rfl
  · rcases b <;> rfl

/-- The idle-path ping consumption never touches the last-access cell. -/
theorem applyPingIdle_lastTs (ping : PingResult) (st : HealthSt) :
    (applyPingIdle ping st).timestampLastAccess = st.timestampLastAccess := by
  rcases ping with ⟨s, _ | b⟩ | m | m <;>
    simp only [applyPingIdle] <;> split_ifs <;> rfl

/-- The no-body ping consumption never touches the last-access cell. -/
theorem applyPingNoBody_lastTs (ping : PingResult) (st : HealthSt) :
    (applyPingNoBody ping st).timestampLastAccess = st.timestampLastAccess := by
  rcases ping with ⟨s, b⟩ | m | m
  · rfl
  · rfl
  · simp only [applyPingNoBody]
    split_ifs <;> rfl

/-- Whatever the prior health value, a batch scan that acted on exactly
one response event leaves the health cell at `false` precisely when the
event's status token is `"500"`. -/
theorem processRev_health (now : Timestamp) (ls : List (List Char)) :
    ∀ (st st1 : HealthSt) (m : LogMessage),
      processRev now ls st = .done st1 true [m] →
      st1.serverHealth =
        some (if lastToken m.custom_message = "500".data then false else true) := by
  induction ls with
  | nil =>
    intro st st1 m h
    simp [processRev] at h
  | cons l rest ih =>
    intro st st1 m h
    cases hf : from_str l with
    | panic => simp [processRev, hf] at h
    | err e =>
      simp only [processRev, hf] at h
      exact ih st st1 m h
    | ok m' =>
      cases hp : "response_status:".data.isPrefixOf m'.custom_message with
      | false =>
        simp only [processRev, hf, hp, Bool.false_eq_true, if_false] at h
        exact ih st st1 m h
      | true =>
        simp [processRev, hf, hp] at h
        obtain ⟨h1, h2⟩ := h
        subst h2
        rw [← h1]
        by_cases hc : lastToken m'.custom_message = "500".data
        · simp [actOnResponse, hc, updateHealthFalse_eq]
        · simp [actOnResponse, hc, updateHealthTrue_eq]

/-- C2 counterexample: a batch whose only event carries status `"404"`
drives the health cell to `true`, although `"404" ≠ "200"` — the code
keys health on `status == "500"`, not on `status == "200"`. -/
theorem c2_counterexample :
    (processLogBatch [line404] sampleNow ⟨some false, none⟩).health = some true ∧
    (processLogBatch [line404] sampleNow
        ⟨some false, none⟩).actedList.map (fun m => lastToken m.custom_message) =
      ["404".data] ∧
    ("404".data = "200".data → False) := by
  refine ⟨by decide, by decide, by decide⟩

/-- C2 (amended): for every `response_status:` event acted upon by the
batch scan, the health cell is set to `false` exactly when the status
token equals `"500"`; every other status (including `"404"`) sets it to
`true`.  There is no pending-request slot in the code. -/
theorem c2_amended (lines : List (List Char)) (now : Timestamp)
    (st st1 : HealthSt) (m : LogMessage)
    (h : processLogBatch lines now st = .done st1 true [m]) :
    st1.serverHealth =
      some (if lastToken m.custom_message = "500".data then false else true) :=
  processRev_health now lines.reverse st st1 m h

/-- The `LogMessage` parsed from `line500`. -/
def msg500 : LogMessage :=
  ⟨⟨2024, 10, 12, 10, 20, 30, 0⟩, "INFO".data, "app".data, "main.rs".data, 1,
    "response_status: 500".data⟩

/-- Witness for C2 (amended) at a concrete batch: the single `"500"`
event forces the health cell to `some false`. -/
theorem c2_amended_witness :
    (HealthSt.serverHealth ⟨some false, some sampleNow⟩) =
      some (if lastToken "response_status: 500".data = "500".data then false
            else true) :=
  c2_amended [line500] sampleNow ⟨none, none⟩ ⟨some false, some sampleNow⟩
    msg500 (by decide)

/-- C1: on an input line that matches the five-field regex but whose
timestamp field does not parse in the fixed millisecond format,
`LogMessage::from_str` aborts the process (`panic!("Error parsing
date")`, src/health.rs line 44) instead of returning a recoverable
error. -/
theorem c1_panic_on_malformed_timestamp :
    from_str "[not a date] [INFO] app in main.rs:1: hello".data =
      ParseOutcome.panic := by decide

/-- C9: a line that matches the structural regex but violates the
timestamp grammar (month 99 etc.) crashes the parser instead of being
returned as a recoverable error and dropped; lines that fail the regex
are returned as `Err`, and fully valid lines parse. -/
theorem c9_invalid_timestamp_line_crashes :
    from_str "[2024-99-99 99:99:99.999] [ERROR] svc in lib.rs:7: response_status: 200".data =
      ParseOutcome.panic ∧
    from_str "no brackets here".data =
      ParseOutcome.err "Invalid API Server log message".data ∧
    from_str line200 =
      ParseOutcome.ok
        ⟨⟨2024, 10, 12, 10, 20, 31, 0⟩, "INFO".data, "app".data, "main.rs".data,
          2, "response_status: 200".data⟩ := by
  refine ⟨by decide, by decide, by decide⟩

/-- C7 counterexample: acting on `line404`, whose log timestamp is
10:20:30.123, stores the wall-clock instant `sampleNow` (11:00:00.000)
into the last-access cell — `Utc::now()`, not the event's parsed
timestamp (src/health.rs lines 149–160). -/
theorem c7_counterexample :
    (processLogBatch [line404] sampleNow ⟨none, none⟩).lastTs = some sampleNow ∧
    (processLogBatch [line404] sampleNow
        ⟨none, none⟩).actedList.map (fun m => m.timestamp) =
      [⟨2024, 10, 12, 10, 20, 30, 123⟩] ∧
    sampleNow ≠ (⟨2024, 10, 12, 10, 20, 30, 123⟩ : Timestamp) := by
  refine ⟨by decide, by decide, by decide⟩

/-- C7 (amended): when a `response_status:` event is acted upon, the
last-access cell is set to the current wall-clock time (`Utc::now()`),
not to the event's log timestamp; only the single acted-upon event
triggers the update. -/
theorem c7_amended (status : List Char) (now : Timestamp) (st : HealthSt) :
    (actOnResponse status now st).timestampLastAccess = some now := rfl

/-- C10: whenever `check_server_health` ends with an error, the spawned
health task in `main` sets `SERVER_HEALTH` to `false` — initialising
the cell if it was never set — before the task returns
(src/main.rs lines 341–366), so readers observe unhealthy after a fatal
health-loop failure. -/
theorem c10_fatal_error_sets_health_false (e : List Char) (h : Option Bool) :
    (healthTaskWrap (.error e) h).1 = some false ∧
    (healthTaskWrap (.error e) h).2 =
      .error ("Failed to check server health: ".data ++ e) := by
  exact ⟨updateHealthFalse_eq h, rfl⟩

/-- Characterisation of the batch scan when no line panics: if no line
is actionable the scan changes nothing, and otherwise exactly the first
actionable line in scan order is acted upon. -/
theorem processRev_find (now : Timestamp) (ls : List (List Char)) (st : HealthSt)
    (h : ∀ l ∈ ls, from_str l ≠ ParseOutcome.panic) :
    (ls.find? actionable = none → processRev now ls st = .done st false []) ∧
    (∀ l₀, ls.find? actionable = some l₀ →
      ∃ m, from_str l₀ = ParseOutcome.ok m ∧
        processRev now ls st =
          .done (actOnResponse (lastToken m.custom_message) now st) true [m]) := by
  induction ls generalizing st with
  | nil =>
    refine ⟨fun _ => rfl, ?_⟩
    intro l₀ hl₀
    simp at hl₀
  | cons l rest ih =>
    have hl : from_str l ≠ .panic := h l (List.mem_cons_self _ _)
    have hrest : ∀ x ∈ rest, from_str x ≠ .panic :=
      fun x hx => h x (List.mem_cons_of_mem _ hx)
    cases ha : actionable l with
    | true =>
      obtain ⟨m, hm, hpre⟩ : ∃ m, from_str l = .ok m ∧
          "response_status:".data.isPrefixOf m.custom_message = true := by
        unfold actionable at ha
        cases hf : from_str l with
        | ok m => rw [hf] at ha; exact ⟨m, rfl, ha⟩
        | err e => rw [hf] at ha; simp at ha
        | panic => exact absurd hf hl
      refine ⟨?_, ?_⟩
      · intro hnone
        rw [List.find?_cons_of_pos _ ha] at hnone
        cases hnone
      · intro l₀ hl₀
        rw [List.find?_cons_of_pos _ ha] at hl₀
        injection hl₀ with hl₀
        subst hl₀
        exact ⟨m, hm, by simp [processRev, hm, hpre]⟩
    | false =>
      have hskip : processRev now (l :: rest) st = processRev now rest st := by
        cases hf : from_str l with
        | panic => exact absurd hf hl
        | err e => simp [processRev, hf]
        | ok m =>
          have hpre : "response_status:".data.isPrefixOf m.custom_message = false := by
            unfold actionable at ha
            rw [hf] at ha
            exact ha
          simp [processRev, hf, hpre]
      have hfind : (l :: rest).find? actionable = rest.find? actionable :=
        List.find?_cons_of_neg _ (by simp [ha])
      refine ⟨?_, ?_⟩
      · intro hnone
        rw [hfind] at hnone
        rw [hskip]
        exact (ih st hrest).1 hnone
      · intro l₀ hl₀
        rw [hfind] at hl₀
        rw [hskip]
        exact (ih st hrest).2 l₀ hl₀

/-- C3 counterexample: a batch holding an older `"500"` response and a
newer `"200"` response is not processed oldest-first and in full — the
scan acts on exactly one event, the newest one (the code iterates
`new_lines.lines().rev()` and `break`s at the first hit,
src/health.rs lines 133 and 200). -/
theorem c3_counterexample :
    (processLogBatch [line500, line200] sampleNow
        ⟨some false, none⟩).actedList.map (fun m => lastToken m.custom_message) =
      ["200".data] ∧
    (processLogBatch [line500, line200] sampleNow
        ⟨some false, none⟩).actedList.length = 1 := by
  refine ⟨by decide, by decide⟩

/-- C3 (amended): within one iteration the new lines are scanned
newest-first and at most one event — the newest line that both parses
and carries the `response_status:` prefix — is acted upon; all other
events in the batch are ignored (stated under the assumption that no
line of the batch makes the parser panic). -/
theorem c3_amended (lines : List (List Char)) (now : Timestamp) (st : HealthSt)
    (h : ∀ l ∈ lines, from_str l ≠ ParseOutcome.panic) :
    (lines.reverse.find? actionable = none →
      processLogBatch lines now st = .done st false []) ∧
    (∀ l₀, lines.reverse.find? actionable = some l₀ →
      ∃ m, from_str l₀ = ParseOutcome.ok m ∧
        processLogBatch lines now st =
          .done (actOnResponse (lastToken m.custom_message) now st) true [m]) := by
  have h' : ∀ l ∈ lines.reverse, from_str l ≠ ParseOutcome.panic := by
    intro l hl
    exact h l (List.mem_reverse.mp hl)
  exact processRev_find now lines.reverse st h'

/-- Witness for C3 (amended): in the concrete two-response batch the
newest actionable line is `line200` and it alone is acted upon. -/
theorem c3_amended_witness :
    ∃ m, from_str line200 = ParseOutcome.ok m ∧
      processLogBatch [line500, line200] sampleNow ⟨some true, none⟩ =
        .done (actOnResponse (lastToken m.custom_message) sampleNow
          ⟨some true, none⟩) true [m] :=
  (c3_amended [line500, line200] sampleNow ⟨some true, none⟩ (by decide)).2
    line200 (by decide)

/-- C4 counterexample: a batch holding two `endpoint:` lines (a second
request starting while the first is unanswered) leaves the health state
entirely unchanged — it is not set to `false`, and with a reachable
ping the full iteration even ends healthy; no pending-request slot
exists in the code. -/
theorem c4_counterexample :
    healthIteration true [lineEndpoint, lineEndpoint2] sampleNow
        (.ok 200 none) ⟨some true, some staleTs⟩ =
      .done ⟨some true, some staleTs⟩ true [] ∧
    (some true ≠ (some false : Option Bool)) := by
  refine ⟨by decide, by decide⟩

/-- C4 (amended): `endpoint:` (`RequestStarted`) lines are never acted
upon by the batch scan — the code only reacts to `response_status:`
messages, so a superseding request start affects neither the health
verdict nor any pending state. -/
theorem c4_amended (l : List Char) (m : LogMessage) (rest : List (List Char))
    (now : Timestamp) (st : HealthSt)
    (hok : from_str l = ParseOutcome.ok m)
    (hep : "endpoint:".data.isPrefixOf m.custom_message = true) :
    processRev now (l :: rest) st = processRev now rest st := by
  have h1 : "endpoint:".data = 'e' :: "ndpoint:".data := rfl
  have h2 : "response_status:".data = 'r' :: "esponse_status:".data := rfl
  have hnr : "response_status:".data.isPrefixOf m.custom_message = false := by
    cases hcm : m.custom_message with
    | nil => decide
    | cons c cs =>
      rw [hcm, h1] at hep
      have hc : c = 'e' := by
        simp [List.isPrefixOf] at hep
        exact hep.1.symm
      have hre : (('r' : Char) == 'e') = false := rfl
      rw [h2, hc]
      simp [List.isPrefixOf, hre]
  simp [processRev, hok, hnr]

/-- Witness for C4 (amended): the concrete `endpoint:` line is skipped
by the batch scan. -/
theorem c4_amended_witness :
    processRev sampleNow [lineEndpoint] ⟨some true, none⟩ =
      processRev sampleNow [] ⟨some true, none⟩ :=
  c4_amended lineEndpoint
    ⟨⟨2024, 10, 12, 10, 20, 30, 0⟩, "INFO".data, "app".data, "main.rs".data, 1,
      "endpoint: /v1/chat/completions".data⟩
    [] sampleNow ⟨some true, none⟩ (by decide) (by decide)

/-- C5 counterexample: the liveness prober runs in an iteration that
*did* observe new log bytes — whenever the batch contains no actionable
`response_status:` line, `check_server_health` pings unconditionally
(src/health.rs lines 206–208), contradicting "invoked only in
iterations where no new log bytes were observed". -/
theorem c5_counterexample :
    (healthIteration true [lineEndpoint] sampleNow (.ok 200 none)
        ⟨some true, some sampleNow⟩).pinged = true := by decide

/-- C5 (amended): in iterations without new bytes and with the idle
timestamp set, exactly one probe is issued per idle window — the idle
clock is reset to `now` on every probe attempt and no probe happens
while the window is fresh; additionally (see the counterexample) the
prober also runs in iterations *with* new bytes whenever no
`response_status:` line was acted upon. -/
theorem c5_amended (lines : List (List Char)) (now : Timestamp)
    (ping : PingResult) (st : HealthSt) (ts : Timestamp)
    (h : st.timestampLastAccess = some ts) :
    (MAX_TIME_SPAN_IN_SECONDS ≤ numSecondsSince now ts →
      (healthIteration false lines now ping st).pinged = true ∧
      (healthIteration false lines now ping st).lastTs = some now) ∧
    (numSecondsSince now ts < MAX_TIME_SPAN_IN_SECONDS →
      healthIteration false lines now ping st = .done st false []) := by
  constructor
  · intro hidle
    simp only [healthIteration, h, if_pos hidle, Bool.false_eq_true, if_false]
    constructor
    · rfl
    · simp [IterOutcome.lastTs, applyPingIdle_lastTs]
  · intro hfresh
    have hnot : ¬ MAX_TIME_SPAN_IN_SECONDS ≤ numSecondsSince now ts :=
      not_le.mpr hfresh
    simp only [healthIteration, h, if_neg hnot, Bool.false_eq_true, if_false]

/-- Witness for C5 (amended), stale side: with the last access 1 hour
old, the idle iteration probes and resets the idle clock to `now`. -/
theorem c5_amended_witness :
    (healthIteration false [] sampleNow (.ok 200 none)
        ⟨some true, some staleTs⟩).pinged = true ∧
    (healthIteration false [] sampleNow (.ok 200 none)
        ⟨some true, some staleTs⟩).lastTs = some sampleNow :=
  (c5_amended [] sampleNow (.ok 200 none) ⟨some true, some staleTs⟩ staleTs
    rfl).1 (by decide)

/-- C6 counterexample: a probe that comes back with HTTP status 500 — a
non-success status — still drives the health verdict to `true` in the
"new bytes, nothing actionable" path: `check_server_health` only warns
on a non-success status and then unconditionally sets `SERVER_HEALTH`
to `true` (src/health.rs lines 209–230). -/
theorem c6_counterexample :
    healthIteration true [lineEndpoint] sampleNow (.ok 500 none)
        ⟨some false, some staleTs⟩ =
      .done ⟨some true, some staleTs⟩ true [] ∧
    isSuccess 500 = false := by
  refine ⟨by decide, by decide⟩

/-- C6 (amended): `ping_server` returns an error only on transport
failure; in the no-body consumption paths every received HTTP response —
success or not — sets health `true`, and health becomes `false` only on
`ServerDownError` (or on the dead residual arm whose message contains
`"Qdrant error:"`). -/
theorem c6_amended (ping : PingResult) (st : HealthSt) :
    (applyPingNoBody ping st).serverHealth =
      some (match ping with
            | .ok _ _ => true
            | .serverDown _ => false
            | .otherErr msg => !containsQdrant msg) := by
  rcases ping with ⟨s, b⟩ | m | m
  · simp [applyPingNoBody, updateHealthTrue_eq]
  · simp [applyPingNoBody, updateHealthFalse_eq]
  · by_cases hq : containsQdrant m = true
    · simp [applyPingNoBody, hq, updateHealthFalse_eq]
    · simp only [Bool.not_eq_true] at hq
      simp [applyPingNoBody, hq, updateHealthTrue_eq]

/-- C8: the cursor-tracked tailer is idempotent and exactly-once — after
any poll, two further polls with no intervening growth deliver empty
byte ranges; the cursor never decreases; and across an append the
delivered ranges concatenate to exactly the file suffix from the old
cursor, so every appended byte is delivered by exactly one poll. -/
theorem c8_tailer (file ext : List Char) (c : Nat) (h : c ≤ file.length) :
    (tailerPoll file (tailerPoll file c).2).1 = [] ∧
    (tailerPoll file (tailerPoll file (tailerPoll file c).2).2).1 = [] ∧
    c ≤ (tailerPoll file c).2 ∧
    (tailerPoll file c).1 ++ (tailerPoll (file ++ ext) (tailerPoll file c).2).1 =
      (file ++ ext).drop c := by
  have hc2 : (tailerPoll file c).2 = file.length := by
    unfold tailerPoll tailerRead nextCanCheck
    by_cases hlt : c < file.length
    · simp [hlt]
    · simp [hlt]
      omega
  have hstay : tailerPoll file file.length = ([], file.length) := by
    unfold tailerPoll tailerRead nextCanCheck
    simp
  refine ⟨?_, ?_, ?_, ?_⟩
  · rw [hc2, hstay]
  · rw [hc2, hstay, hstay]
  · rw [hc2]
    exact h
  · rw [hc2]
    have hdrop : (file ++ ext).drop c = file.drop c ++ ext :=
      List.drop_append_of_le_length h
    by_cases hext : ext = []
    · subst hext
      rw [hdrop]
      have : tailerPoll (file ++ []) file.length = ([], file.length) := by
        simpa using hstay
      rw [this]
      unfold tailerPoll tailerRead nextCanCheck
      by_cases hlt : c < file.length
      · simp [hlt]
      · have : c = file.length := by omega
        subst this
        simp
    · have hlen : file.length < (file ++ ext).length := by
        rw [List.length_append]
        have : 0 < ext.length := List.length_pos.mpr hext
        omega
      have hpos : 0 < ext.length := List.length_pos.mpr hext
      have hsecond : (tailerPoll (file ++ ext) file.length).1 = ext := by
        unfold tailerPoll tailerRead nextCanCheck
        simp [hlen, hpos, List.drop_left]
      rw [hsecond, hdrop]
      unfold tailerPoll tailerRead nextCanCheck
      by_cases hlt : c < file.length
      · simp [hlt]
      · have : c = file.length := by omega
        subst this
        simp

/-- Witness for C8 at a concrete file: cursor 1 in a 2-byte file, then a
2-byte append. -/
theorem c8_tailer_witness :
    (tailerPoll "ab".data (tailerPoll "ab".data 1).2).1 = [] ∧
    (tailerPoll "ab".data (tailerPoll "ab".data (tailerPoll "ab".data 1).2).2).1 = [] ∧
    1 ≤ (tailerPoll "ab".data 1).2 ∧
    (tailerPoll "ab".data 1).1 ++
        (tailerPoll ("ab".data ++ "cd".data) (tailerPoll "ab".data 1).2).1 =
      ("ab".data ++ "cd".data).drop 1 :=
  c8_tailer "ab".data "cd".data 1 (by decide)

end Assistant
